import Mathlib

/-!
# Verification of the pyrtable field/record/query/filter core

A shallow embedding of the pyrtable source (an Airtable ORM client) in Lean 4,
with theorems settling specification claims about:

* the field type hierarchy (`src/pyrtable/fields/basic.py`, `base.py`,
  `attachment.py`, `valueset.py`, `recordlink.py`),
* the record lifecycle core (`src/pyrtable/record.py`,
  `src/pyrtable/context/base.py`),
* the query state machine (`src/pyrtable/query.py`),
* the filter formula builder (`src/pyrtable/filters/raw.py`,
  `src/pyrtable/filters/q.py`, `src/pyrtable/filterutils.py`).

Python dictionaries whose key set is fixed by the record class are modelled as
total maps `String → PyVal` (a missing key reads as Python `None`, matching
`dict.get`).  Python object identity (the `is` operator) is modelled by
`Nat` tokens.  Machine floats appear only through the `NaN` wire sentinel and
plain JSON numbers, so they are modelled as rationals plus a distinguished
`nan` constructor whose Python `==` is never true — exactly the property of
IEEE NaN that the proofs rely on.

The file is laid out as all definitions first (translated from the source),
followed by all theorems.
-/

set_option autoImplicit false

namespace Pyrtable

/-! ## Definitions: the shallow embedding of the source -/

/-- The universe of Python values that flow through the basic field types
(string/integer/float/boolean): JSON scalars, the float `nan`, and the wire
dictionary `\x7b'specialValue': 'NaN'\x7d` that Airtable sends for NaN numbers
(`fields/basic.py` checks `value.get('specialValue') == 'NaN'`). -/
inductive PyVal where
  | none
  | str (s : String)
  | int (n : Int)
  | float (q : ℚ)
  | nan
  | bool (b : Bool)
  | nanSentinel
  deriving DecidableEq, Repr

/-- Python truthiness (`bool(v)`) on the modelled values.  `bool(float('nan'))`
is `True` and a non-empty dict is truthy. -/
def pyTruthy : PyVal → Bool
  | .none => false
  | .str s => s ≠ ""
  | .int n => n ≠ 0
  | .float q => q ≠ 0
  | .nan => true
  | .bool b => b
  | .nanSentinel => true

/-- Numeric view used by Python `==`: `bool` is an `int` subclass
(`True == 1`), and ints compare equal to floats of the same value. -/
def pyNumeric? : PyVal → Option ℚ
  | .int n => some (n : ℚ)
  | .float q => some q
  | .bool b => some (if b then 1 else 0)
  | _ => Option.none

/-- Python `==` on the modelled values.  `nan` is not equal to anything
(including itself); numbers compare across `bool`/`int`/`float`; otherwise
equality requires the same shape. -/
def pyEq (a b : PyVal) : Bool :=
  match a, b with
  | .nan, _ => false
  | _, .nan => false
  | a, b =>
    match pyNumeric? a, pyNumeric? b with
    | some x, some y => x = y
    | _, _ => a = b

/-- The field kinds embedded from `fields/basic.py`.  Attachment, selection and
record-link fields are modelled separately where a claim needs them. -/
inductive FieldKind where
  | string
  | integer
  | float
  | boolean
  deriving DecidableEq, Repr

/-- `decode_from_airtable` per field kind (`fields/basic.py`).  Notes:

* `StringField.decode_from_airtable` is `value or ''`.
* `IntegerField` maps the NaN sentinel to `None`, raises `ValueError` on any
  other dict, and otherwise applies `int(value)` (truncation toward zero for
  floats, `True ↦ 1`; `int(nan)` raises; `int` of a string is outside the
  modelled wire universe and is mapped to the error case).
* `FloatField` maps the NaN sentinel to `math.nan` and otherwise applies
  `float(value)`.
* `BooleanField.decode_from_airtable` is `bool(value)`. -/
def decodeFromAirtable : FieldKind → PyVal → Except String PyVal
  | .string, v => .ok (if pyTruthy v then v else .str "")
  | .integer, .none => .ok .none
  | .integer, .nanSentinel => .ok .none
  | .integer, .int n => .ok (.int n)
  | .integer, .bool b => .ok (.int (if b then 1 else 0))
  | .integer, .float q => .ok (.int (if 0 ≤ q then q.floor else -((-q).floor)))
  | .integer, _ => .error "ValueError"
  | .float, .none => .ok .none
  | .float, .nanSentinel => .ok .nan
  | .float, .int n => .ok (.float (n : ℚ))
  | .float, .float q => .ok (.float q)
  | .float, .nan => .ok .nan
  | .float, .bool b => .ok (.float (if b then 1 else 0))
  | .float, .str _ => .error "ValueError"
  | .boolean, v => .ok (.bool (pyTruthy v))

/-- The value a field holds when decoded from an absent wire entry, i.e.
`decode_from_airtable(None)`: `''` for strings, `None` for numbers, `False`
for booleans. -/
def decodeAbsent : FieldKind → PyVal
  | .string => .str ""
  | .integer => .none
  | .float => .none
  | .boolean => .bool false

/-- `encode_to_airtable` per field kind (`fields/basic.py`): strings map `''`
back to `None`, numbers pass through unchanged, booleans are present-when-true
(`True if value else None`). -/
def encodeToAirtableValue : FieldKind → PyVal → PyVal
  | .string, v => if pyTruthy v then v else .none
  | .integer, v => v
  | .float, v => v
  | .boolean, v => if pyTruthy v then .bool true else .none

/-- `validate` per field kind: `StringField.validate` is `value or ''`, the
other basic kinds inherit the identity `BaseField.validate`. -/
def validateValue : FieldKind → PyVal → PyVal
  | .string, v => if pyTruthy v then v else .str ""
  | .integer, v => v
  | .float, v => v
  | .boolean, v => v

/-- `clone_value`: the basic kinds inherit the identity
`BaseField.clone_value`. -/
def cloneValue : FieldKind → PyVal → PyVal
  | _, v => v

/-- `is_same_value`: the basic kinds inherit `BaseField.is_same_value`, which
is Python `==`. -/
def isSameValue : FieldKind → PyVal → PyVal → Bool
  | _, a, b => pyEq a b

/-- A field descriptor after it is bound into a record class: wire column name
(`BaseField._column_name`, which `BaseRecord.__new__` replaces with the
attribute name when it is `None`), the `read_only` constructor argument
(`None` when not given), and the field kind. -/
structure Field where
  attrName : String
  columnName : Option String
  readOnly : Option Bool
  kind : FieldKind
  deriving DecidableEq, Repr

/-- A record class: its declared fields in `iter_fields` order (inherited
fields deduplicated, nearest declaration first) and the optional
`Meta.read_only` class attribute consulted by the `BaseField.read_only`
property. -/
structure RecordCls where
  fields : List Field
  metaReadOnly : Option Bool
  deriving DecidableEq, Repr

/-- The `BaseField.read_only` property: the field's own `_read_only` if set,
else the record class's `Meta.read_only`, else `False`. -/
def fieldReadOnly (cls : RecordCls) (f : Field) : Bool :=
  match f.readOnly with
  | some b => b
  | Option.none =>
    match cls.metaReadOnly with
    | some b => b
    | Option.none => false

/-- Point update of a total map modelling `d[a] = v` on a Python dict. -/
def setValue (m : String → PyVal) (a : String) (v : PyVal) : String → PyVal :=
  fun x => if x = a then v else m x

/-- A `for attr_name, field in cls.iter_fields(): d[attr_name] = g(field)`
loop over a value dict, where `g` reads only state fixed during the loop. -/
def assignFields (fs : List Field) (g : Field → PyVal) (m : String → PyVal) :
    String → PyVal :=
  fs.foldl (fun m f => setValue m f.attrName (g f)) m

/-- The per-record state: server identifier (`_id`), creation timestamp
(`_created_timestamp`, kept as the raw `createdTime` string), the current
field values (`_fields_values`) and the last-sync snapshots
(`_orig_fields_values`).  Both dicts always cover the class's attribute
names, so they are modelled as total maps. -/
structure RecordState where
  id : Option String
  createdTimestamp : Option String
  fieldsValues : String → PyVal
  origFieldsValues : String → PyVal

/-- `BaseField.__get__`: reads `instance._fields_values.get(self.attr_name)`. -/
def fieldGet (r : RecordState) (attrName : String) : PyVal :=
  r.fieldsValues attrName

/-- `BaseRecord._clear_dirty_fields`: snapshot every field's current value
through the field's `clone_value`. -/
def clearDirtyFields (cls : RecordCls) (r : RecordState) : RecordState :=
  { r with
    origFieldsValues :=
      assignFields cls.fields
        (fun f => cloneValue f.kind (r.fieldsValues f.attrName))
        r.origFieldsValues }

/-- `BaseRecord.__init__` (without the keyword-argument assignments): every
field starts from `decode_from_airtable(None)` — the `decodeAbsent` value, by
`decodeFromAirtable_none` — and the dirty baseline is established. -/
def recordInit (cls : RecordCls) : RecordState :=
  clearDirtyFields cls
    { id := Option.none
      createdTimestamp := Option.none
      fieldsValues :=
        assignFields cls.fields (fun f => decodeAbsent f.kind) (fun _ => .none)
      origFieldsValues := fun _ => .none }

/-- A raw Airtable record payload:
`\x7b id, createdTime, fields: \x7bcolumn: value\x7d \x7d`. -/
structure AirtableData where
  id : String
  createdTime : String
  fields : List (String × PyVal)
  deriving DecidableEq, Repr

/-- `fields_values.get(column_name)` on a wire payload: `None` when the
column is absent. -/
def wireGet (fields : List (String × PyVal)) (c : String) : PyVal :=
  match fields.lookup c with
  | some v => v
  | Option.none => .none

/-- One iteration of the decoding loop of
`BaseRecord.consume_airtable_data`: a field without a column name is skipped,
any other field decodes the wire value for its column (a raised decode error
aborts the whole call). -/
def consumeFieldsStep (wire : List (String × PyVal)) (m : String → PyVal)
    (f : Field) : Except String (String → PyVal) :=
  match f.columnName with
  | Option.none => .ok m
  | some c => do
    let v ← decodeFromAirtable f.kind (wireGet wire c)
    .ok (setValue m f.attrName v)

/-- The decoding loop of `BaseRecord.consume_airtable_data` over all declared
fields. -/
def consumeFieldsValues (cls : RecordCls) (wire : List (String × PyVal))
    (m0 : String → PyVal) : Except String (String → PyVal) :=
  cls.fields.foldlM (consumeFieldsStep wire) m0

/-- `BaseRecord.consume_airtable_data`: store `id` and `createdTime`, decode
every column-bearing field, then `_clear_dirty_fields`. -/
def consumeAirtableData (cls : RecordCls) (r : RecordState)
    (data : AirtableData) : Except String RecordState := do
  let fv ← consumeFieldsValues cls data.fields r.fieldsValues
  .ok (clearDirtyFields cls
    { r with
      id := some data.id
      createdTimestamp := some data.createdTime
      fieldsValues := fv })

/-- `result[k] = v` on the Python dict built by `encode_to_airtable`:
replaces in place if the key exists, else appends. -/
def dictInsert (l : List (String × PyVal)) (k : String) (v : PyVal) :
    List (String × PyVal) :=
  if (l.lookup k).isSome then
    l.map (fun p => if p.1 = k then (k, v) else p)
  else
    l ++ [(k, v)]

/-- `BaseRecord.encode_to_airtable`: skip read-only and column-less fields;
unless `include_non_dirty_fields`, skip fields whose current value
`is_same_value` as the snapshot; emit the encoded value under the column
name. -/
def encodeToAirtable (cls : RecordCls) (r : RecordState)
    (includeNonDirtyFields : Bool) : List (String × PyVal) :=
  cls.fields.foldl
    (fun result f =>
      match fieldReadOnly cls f, f.columnName with
      | false, some c =>
        let value := r.fieldsValues f.attrName
        if !includeNonDirtyFields &&
            isSameValue f.kind value (r.origFieldsValues f.attrName) then
          result
        else
          dictInsert result c (encodeToAirtableValue f.kind value)
      | _, _ => result)
    []

/-- The record-state effect of `BaseContext.delete`: a no-op when the record
has no id; otherwise clear `_id` and `_created_timestamp` and reset every
field's snapshot to `decode_from_airtable(None)` (the current values are left
untouched — the source comment: "delete() does not clear data, but anything
that is semantically different from None becomes instantly dirty"). -/
def contextDelete (cls : RecordCls) (r : RecordState) : RecordState :=
  match r.id with
  | Option.none => r
  | some _ =>
    { r with
      id := Option.none
      createdTimestamp := Option.none
      origFieldsValues :=
        assignFields cls.fields (fun f => decodeAbsent f.kind)
          r.origFieldsValues }

/-- `BaseField.__set__` evaluated on a record: the read-only guard tests
`self.read_only and self._record.id is not None`, where `self._record` is the
descriptor's own record pointer (passed here as `lastBoundRecordId`) — NOT
necessarily the instance being assigned.  On success the validated value is
stored in the instance. -/
def fieldSet (cls : RecordCls) (f : Field) (lastBoundRecordId : Option String)
    (r : RecordState) (value : PyVal) : Except String RecordState :=
  if fieldReadOnly cls f && lastBoundRecordId.isSome then
    .error "AttributeError: This field is read-only"
  else
    .ok { r with
          fieldsValues :=
            setValue r.fieldsValues f.attrName (validateValue f.kind value) }

/-- The state shared between the coexisting instances of one record class:
the instances in construction order, and the index of the instance currently
referenced by the descriptors' `_record` pointer — `BaseRecord.__new__` sets
`field._record = instance` on every construction, so it always names the most
recently constructed instance. -/
structure DescriptorWorld where
  instances : List RecordState
  lastBound : Option Nat

/-- Constructing a record (`cls(...)` running `__new__` then `__init__`):
appends a fresh blank instance and rebinds every descriptor's `_record` to
it. -/
def constructRecord (cls : RecordCls) (w : DescriptorWorld) : DescriptorWorld :=
  { instances := w.instances ++ [recordInit cls]
    lastBound := some w.instances.length }

/-- The id that `self._record.id` yields inside `BaseField.__set__`. -/
def lastBoundId (w : DescriptorWorld) : Option String :=
  match w.lastBound with
  | some j =>
    match w.instances[j]? with
    | some r => r.id
    | Option.none => Option.none
  | Option.none => Option.none

/-- `setattr` of a field on instance `i` of the world: `BaseField.__set__`
with the descriptor's `_record` pointing at the most recently constructed
instance. -/
def worldSetField (cls : RecordCls) (f : Field) (w : DescriptorWorld) (i : Nat)
    (value : PyVal) : Except String DescriptorWorld :=
  match w.instances[i]? with
  | some r =>
    match fieldSet cls f (lastBoundId w) r value with
    | .ok r2 => .ok { w with instances := w.instances.set i r2 }
    | .error e => .error e
  | Option.none => .error "IndexError"

/-- `consume_airtable_data` on instance `i` of the world (hydration does not
touch the descriptors' `_record` pointer). -/
def worldConsume (cls : RecordCls) (w : DescriptorWorld) (i : Nat)
    (data : AirtableData) : Except String DescriptorWorld :=
  match w.instances[i]? with
  | some r =>
    match consumeAirtableData cls r data with
    | .ok r2 => .ok { w with instances := w.instances.set i r2 }
    | .error e => .error e
  | Option.none => .error "IndexError"

/-- `True` exactly on `Except.ok`. -/
def exceptOk {α : Type} : Except String α → Bool
  | .ok _ => true
  | .error _ => false

/-- Extract the `ok` payload, with a fallback for the error case. -/
def exceptGet {α : Type} (d : α) : Except String α → α
  | .ok a => a
  | .error _ => d

/-- A writable string field `name` stored in column `Name`. -/
def fieldString1 : Field :=
  { attrName := "name", columnName := some "Name",
    readOnly := Option.none, kind := .string }

/-- A record class with the single writable string field `fieldString1`. -/
def clsString1 : RecordCls :=
  { fields := [fieldString1], metaReadOnly := Option.none }

/-- A wire payload giving `clsString1`'s record the value `"x"`. -/
def dataString1 : AirtableData :=
  { id := "rec1", createdTime := "2020-01-02T03:04:05.678Z",
    fields := [("Name", .str "x")] }

/-- The `clsString1` record hydrated from `dataString1`. -/
def recString1 : RecordState :=
  exceptGet (recordInit clsString1)
    (consumeAirtableData clsString1 (recordInit clsString1) dataString1)

/-- A record class with a single writable float field `value` stored in
column `Value`. -/
def clsFloat1 : RecordCls :=
  { fields := [{ attrName := "value", columnName := some "Value",
                 readOnly := Option.none, kind := .float }]
    metaReadOnly := Option.none }

/-- A wire payload carrying the NaN sentinel for `clsFloat1`'s only column. -/
def dataFloat1 : AirtableData :=
  { id := "rec2", createdTime := "2020-01-02T03:04:05.678Z",
    fields := [("Value", .nanSentinel)] }

/-- The `clsFloat1` record hydrated from `dataFloat1`: its float field holds
NaN. -/
def recFloat1 : RecordState :=
  exceptGet (recordInit clsFloat1)
    (consumeAirtableData clsFloat1 (recordInit clsFloat1) dataFloat1)

/-- A read-only string field `name` (column `Name`). -/
def fieldRO : Field :=
  { attrName := "name", columnName := some "Name",
    readOnly := some true, kind := .string }

/-- A record class with the single read-only field `fieldRO`. -/
def clsRO : RecordCls := { fields := [fieldRO], metaReadOnly := Option.none }

/-- A wire payload with id `rec1` for `clsRO`. -/
def dataRO : AirtableData :=
  { id := "rec1", createdTime := "2020-01-02T03:04:05.678Z",
    fields := [("Name", .str "x")] }

/-- Construct record A, then record B (descriptors now point at B), then
hydrate A with `dataRO` (so A has a server id, B does not). -/
def worldAB : DescriptorWorld :=
  exceptGet (constructRecord clsRO (constructRecord clsRO ⟨[], Option.none⟩))
    (worldConsume clsRO
      (constructRecord clsRO (constructRecord clsRO ⟨[], Option.none⟩))
      0 dataRO)

/-- Construct record A, then record B, then hydrate B (so B has a server id,
A does not). -/
def worldAB' : DescriptorWorld :=
  exceptGet (constructRecord clsRO (constructRecord clsRO ⟨[], Option.none⟩))
    (worldConsume clsRO
      (constructRecord clsRO (constructRecord clsRO ⟨[], Option.none⟩))
      1 dataRO)

/-- The id of instance `i` of a world. -/
def instanceId (w : DescriptorWorld) (i : Nat) : Option String :=
  match w.instances[i]? with
  | some r => r.id
  | Option.none => Option.none

/-- The values that appear in filter leaves for the embedded claims: strings,
ints and bools (`filterutils.quote_value` also handles enums and dates, which
no claim exercises). -/
inductive FilterVal where
  | str (s : String)
  | int (n : Int)
  | bool (b : Bool)
  deriving DecidableEq, Repr

/-- Python truthiness of a filter value (`if self.value:`). -/
def filterValTruthy : FilterVal → Bool
  | .str s => s ≠ ""
  | .int n => n ≠ 0
  | .bool b => b

/-- The filter tree (`filters/raw.py`), plus `QFilter` for `filters/q.py`'s
`Q`, which wraps an `AndFilter` and delegates `build_formula` to it. -/
inductive BFilter where
  | TrueFilter
  | FalseFilter
  | NotFilter (flt : BFilter)
  | AndFilter (filters : List BFilter)
  | OrFilter (filters : List BFilter)
  | QFilter (filters : List BFilter)
  | EqualsFilter (attrName : String) (value : FilterVal)
  | NotEqualsFilter (attrName : String) (value : FilterVal)

def isFalseFilter : BFilter → Bool
  | .FalseFilter => true
  | _ => false

def isTrueFilter : BFilter → Bool
  | .TrueFilter => true
  | _ => false

/-- `AndFilter.__init__`: one level of flattening of nested `AndFilter`
arguments into the child list. -/
def mkAndFilter (filters : List BFilter) : BFilter :=
  .AndFilter (filters.flatMap fun f =>
    match f with
    | .AndFilter gs => gs
    | g => [g])

/-- `OrFilter.__init__`: one level of flattening of nested `OrFilter`
arguments into the child list. -/
def mkOrFilter (filters : List BFilter) : BFilter :=
  .OrFilter (filters.flatMap fun f =>
    match f with
    | .OrFilter gs => gs
    | g => [g])

/-- `filterutils.quote_column_name`: wrap the column name in braces. -/
def quoteColumnName (columnName : String) : String :=
  "\x7b" ++ columnName ++ "\x7d"

/-- Python `'%s' % column_name` when the column name may be `None`. -/
def pyStrOfOptColumn : Option String → String
  | some s => s
  | Option.none => "None"

/-- `filterutils.quote_value` on the embedded value universe: strings are
double-quoted with `"`/`'`/`\` backslash-escaped, bools render as `TRUE()` /
`FALSE()`, ints as bare decimal tokens. -/
def quoteValue : FilterVal → String
  | .str s =>
    "\"" ++
      String.mk (s.toList.flatMap fun ch =>
        if ch = '"' ∨ ch = '\'' ∨ ch = '\\' then ['\\', ch] else [ch]) ++
      "\""
  | .bool b => if b then "TRUE()" else "FALSE()"
  | .int n => toString n

/-- `filterutils.airtable_filter_and`: drop empty renderings; empty list
renders as the empty string, a singleton as itself, otherwise `AND(...)`. -/
def airtableFilterAnd (innerFilters : List String) : String :=
  match innerFilters.filter (fun s => !(s == "")) with
  | [] => ""
  | [s] => s
  | ss => "AND(" ++ String.intercalate "," ss ++ ")"

/-- `filterutils.airtable_filter_or`. -/
def airtableFilterOr (innerFilters : List String) : String :=
  match innerFilters.filter (fun s => !(s == "")) with
  | [] => ""
  | [s] => s
  | ss => "OR(" ++ String.intercalate "," ss ++ ")"

/-- `filterutils.airtable_filter_not`: an empty inner formula renders as
`FALSE()`. -/
def airtableFilterNot (innerFilter : String) : String :=
  if innerFilter = "" then "FALSE()" else "NOT(" ++ innerFilter ++ ")"

/-- `filterutils.airtable_filter_equals`. -/
def airtableFilterEquals (columnName : String) (value : FilterVal) : String :=
  quoteColumnName columnName ++ "=" ++ quoteValue value

/-- `filterutils.airtable_filter_not_equals`. -/
def airtableFilterNotEquals (columnName : String) (value : FilterVal) :
    String :=
  quoteColumnName columnName ++ "!=" ++ quoteValue value

/-- `BaseFilter.get_field_object`: first declared field with the given
attribute name, `AttributeError` if none. -/
def getFieldObject (recordClass : RecordCls) (attrName : String) :
    Except String Field :=
  match recordClass.fields.find? (fun f => f.attrName == attrName) with
  | some f => .ok f
  | Option.none => .error "AttributeError"

mutual

/-- `build_formula` of each filter class (`filters/raw.py`):

* `NotFilter` folds `NOT(TRUE())`/`NOT(FALSE())` to the opposite literal and
  cancels a directly nested `NotFilter`;
* `AndFilter`/`OrFilter` absorb a literal-false/true child before rendering
  any child, then render through `airtable_filter_and`/`_or`;
* `Q.build_formula` delegates to its internal `AndFilter` (inlined here);
* `EqualsFilter` renders boolean fields as `(\x7bcol\x7d)` or
  `NOT(\x7bcol\x7d)` instead of a generic `=` comparison. -/
def buildFormula (recordClass : RecordCls) : BFilter → Except String String
  | .TrueFilter => .ok "TRUE()"
  | .FalseFilter => .ok "FALSE()"
  | .NotFilter flt =>
    match flt with
    | .TrueFilter => .ok "FALSE()"
    | .FalseFilter => .ok "TRUE()"
    | .NotFilter inner => buildFormula recordClass inner
    | other => do
      let s ← buildFormula recordClass other
      .ok (airtableFilterNot s)
  | .AndFilter fs =>
    if fs.any isFalseFilter then .ok "FALSE()"
    else do
      let ss ← buildFormulaList recordClass fs
      .ok (airtableFilterAnd ss)
  | .OrFilter fs =>
    if fs.any isTrueFilter then .ok "TRUE()"
    else do
      let ss ← buildFormulaList recordClass fs
      .ok (airtableFilterOr ss)
  | .QFilter fs =>
    if fs.any isFalseFilter then .ok "FALSE()"
    else do
      let ss ← buildFormulaList recordClass fs
      .ok (airtableFilterAnd ss)
  | .EqualsFilter attrName value => do
    let field ← getFieldObject recordClass attrName
    if field.kind = .boolean then
      if filterValTruthy value then
        .ok ("(" ++ quoteColumnName (pyStrOfOptColumn field.columnName) ++ ")")
      else
        .ok ("NOT(" ++ quoteColumnName (pyStrOfOptColumn field.columnName)
          ++ ")")
    else
      .ok (airtableFilterEquals (pyStrOfOptColumn field.columnName) value)
  | .NotEqualsFilter attrName value => do
    let field ← getFieldObject recordClass attrName
    .ok (airtableFilterNotEquals (pyStrOfOptColumn field.columnName) value)

/-- Rendering of a child list, left to right, aborting at the first raised
error (the order in which the `build_formula` generator is consumed inside
`airtable_filter_and`/`_or`). -/
def buildFormulaList (recordClass : RecordCls) :
    List BFilter → Except String (List String)
  | [] => .ok []
  | f :: fs => do
    let s ← buildFormula recordClass f
    let ss ← buildFormulaList recordClass fs
    .ok (s :: ss)

end

/-- The state of a `RecordQuery`: the initialisation flag distinguishing
"not yet scoped" from "scoped", the empty-query short-circuit flag, and the
accumulated filter (base/table addressing is irrelevant to the embedded
claims). -/
structure RecordQuery where
  initialised : Bool
  isEmptyQuery : Bool
  recordFilter : Option BFilter

/-- `RecordQuery()` as created for `BaseRecord.objects`: class defaults
`_initialised = False`, `_is_empty_query = False` and `__init__` default
`flt = None`. -/
def RecordQuery.fresh : RecordQuery :=
  { initialised := false, isEmptyQuery := false, recordFilter := Option.none }

/-- `RecordQuery.all`: a shallow copy with `_initialised = True` (or the
query itself when already initialised). -/
def RecordQuery.all (q : RecordQuery) : RecordQuery :=
  if q.initialised then q else { q with initialised := true }

/-- `RecordQuery.none`: a shallow copy with both flags set (or the query
itself when already empty). -/
def RecordQuery.noneQuery (q : RecordQuery) : RecordQuery :=
  if q.isEmptyQuery then q
  else { q with initialised := true, isEmptyQuery := true }

/-- `RecordQuery.filter(*args, **kwargs)`: with no criteria it is `all()`;
otherwise the criteria are merged into a `Q` filter — a fresh `Q(*args)`, an
in-place `Q.extend`, or `Q(existing, *args)` depending on the current
filter. -/
def RecordQuery.filterBy (q : RecordQuery) (criteria : List BFilter) :
    RecordQuery :=
  match criteria with
  | [] => q.all
  | _ =>
    { q with
      initialised := true
      recordFilter := some
        (match q.recordFilter with
        | Option.none => .QFilter criteria
        | some (.QFilter gs) => .QFilter (gs ++ criteria)
        | some g => .QFilter (g :: criteria)) }

/-- The observable behaviour of `RecordQuery.__iter__`: raising
`ValueError`, yielding nothing without touching the network, or fetching
from the remote context. -/
inductive IterOutcome where
  | raises
  | yieldsNothingNoRemote
  | fetchesRemote
  deriving DecidableEq, Repr

/-- `RecordQuery.__iter__`: uninitialised queries raise; empty queries
return before any remote call; everything else delegates to the context's
`fetch_many`. -/
def RecordQuery.iterOutcome (q : RecordQuery) : IterOutcome :=
  if !q.initialised then .raises
  else if q.isEmptyQuery then .yieldsNothingNoRemote
  else .fetchesRemote

/-- The observable behaviour of `RecordQuery.get`: raising `KeyError`,
raising `ValueError`, or a remote single-record fetch. -/
inductive GetOutcome where
  | raisesKeyError (recordId : String)
  | raisesValueError
  | fetchesSingle (recordId : String)
  deriving DecidableEq, Repr

/-- `RecordQuery.get`: the empty query raises `KeyError(record_id)` without
a remote call; a query with a filter applied raises `ValueError`; otherwise
the context's `fetch_single` is invoked. -/
def RecordQuery.get (q : RecordQuery) (recordId : String) : GetOutcome :=
  if q.isEmptyQuery then .raisesKeyError recordId
  else
    match q.recordFilter with
    | some _ => .raisesValueError
    | Option.none => .fetchesSingle recordId

/-- The reachability invariant of query states: `_is_empty_query` is only
ever set together with `_initialised` (`none()` initialises first). -/
def RecordQuery.wf (q : RecordQuery) : Prop :=
  q.isEmptyQuery = true → q.initialised = true

/-- `_RecordLink`: the stored identifier (`_id`) and the resolved record
(`_record`).  Python object identity (`is`) on the resolved record is
modelled by a `Nat` token: two links resolved to the identical object carry
the same token. -/
structure RecordLink where
  linkId : Option String
  linkRecord : Option Nat
  deriving DecidableEq, Repr

/-- `_RecordLink.__eq__`: equal if both identifiers are set and match,
otherwise if both resolved records are the identical object. -/
def recordLinkEq (a b : RecordLink) : Bool :=
  if a.linkId.isSome && a.linkId == b.linkId then true
  else a.linkRecord.isSome && a.linkRecord == b.linkRecord

/-- The descriptor data produced by `BaseField.__init__`. -/
structure BaseFieldData where
  columnName : Option String
  readOnly : Option Bool
  defaultValue : Option PyVal
  deriving DecidableEq, Repr

/-- `BaseField.__init__`: `read_only` truthy together with a non-`None`
default raises `ValueError`. -/
def baseFieldInit (columnName : Option String) (default : Option PyVal)
    (readOnly : Option Bool) : Except String BaseFieldData :=
  if (readOnly == some true) && default.isSome then
    .error "ValueError: Cannot set a default value for a read-only field"
  else
    .ok { columnName := columnName, readOnly := readOnly,
          defaultValue := default }

/-- `AttachmentField.__init__`: `kwargs.get('read_only', False)` must be
truthy (a missing, `None` or `False` value raises `AttributeError` at
field-definition time), then `BaseField.__init__` runs. -/
def attachmentFieldInit (columnName : Option String) (default : Option PyVal)
    (readOnly : Option Bool) : Except String BaseFieldData :=
  if !(readOnly == some true) then
    .error "AttributeError: AttachmentField is only implemented as a read-only field"
  else
    baseFieldInit columnName default readOnly

/-- `AttachmentField.encode_to_airtable`: unconditionally raises
`NotImplementedError`. -/
def attachmentFieldEncode (_value : PyVal) : Except String PyVal :=
  .error "NotImplementedError: AttachmentField is only implemented as a read-only field"

/-- `ValueSet`: a set of items plus the validator applied on every
operation.  The Python `set` is modelled as a `Finset`. -/
structure ValueSet (T : Type) [DecidableEq T] where
  items : Finset T
  validator : T → T

variable {T : Type} [DecidableEq T]

/-- `ValueSet.add`: inserts the validated element. -/
def ValueSet.add (s : ValueSet T) (x : T) : ValueSet T :=
  { s with items := insert (s.validator x) s.items }

/-- `ValueSet.discard`: removes the validated element. -/
def ValueSet.discard (s : ValueSet T) (x : T) : ValueSet T :=
  { s with items := s.items.erase (s.validator x) }

/-- `ValueSet.__contains__`: membership of the validated element. -/
def ValueSet.contains (s : ValueSet T) (x : T) : Bool :=
  decide (s.validator x ∈ s.items)

/-- `ValueSet.set`: replace the items with the validated elements of an
iterable. -/
def ValueSet.setItems (s : ValueSet T) (xs : List T) : ValueSet T :=
  { s with items := (xs.map s.validator).toFinset }

/-- A selection value: either a raw wire string or the member of the
declared enumeration whose value is that string. -/
inductive SelVal where
  | raw (s : String)
  | member (s : String)
  deriving DecidableEq, Repr

/-- `validator_from_enum`: `enum_class(value)` coerces a raw value that is
one of the enum's values into the corresponding member and passes anything
else through unchanged (`ValueError` is swallowed); a member maps to
itself. -/
def validatorFromEnum (enumValues : List String) : SelVal → SelVal
  | .raw s => if s ∈ enumValues then .member s else .raw s
  | .member s => .member s

/-! ## Theorems -/

theorem decodeFromAirtable_none (k : FieldKind) :
    decodeFromAirtable k .none = .ok (decodeAbsent k) := by
  cases k <;> rfl

/-- Python `==` is reflexive on every modelled value except `nan`. -/
theorem pyEq_refl (v : PyVal) (h : v ≠ .nan) : pyEq v v = true := by
  cases v <;> simp_all [pyEq, pyNumeric?]

/-- `nan` is not Python-equal to itself — the IEEE property behind the float
dirty-tracking anomaly. -/
theorem pyEq_nan : pyEq .nan .nan = false := rfl

example : decodeFromAirtable .float .nanSentinel = .ok .nan := rfl

example : decodeFromAirtable .integer .nanSentinel = .ok .none := rfl

example : pyEq (.int 1) (.bool true) = true := by decide

example : pyEq (.str "") .none = false := by decide

theorem assignFields_not_mem (fs : List Field) (g : Field → PyVal)
    (m : String → PyVal) (a : String) (h : a ∉ fs.map Field.attrName) :
    assignFields fs g m a = m a := by
  induction fs generalizing m with
  | nil => rfl
  | cons f fs ih =>
    simp only [List.map_cons, List.mem_cons, not_or] at h
    simp only [assignFields, List.foldl_cons] at *
    rw [ih _ h.2, setValue, if_neg h.1]

theorem assignFields_mem (fs : List Field) (g : Field → PyVal)
    (m : String → PyVal) (f : Field) (hf : f ∈ fs)
    (hnd : (fs.map Field.attrName).Nodup) :
    assignFields fs g m f.attrName = g f := by
  induction fs generalizing m with
  | nil => cases hf
  | cons f0 fs ih =>
    simp only [List.map_cons, List.nodup_cons] at hnd
    rcases List.mem_cons.mp hf with rfl | hmem
    · show assignFields fs g (setValue m f.attrName (g f)) f.attrName = g f
      rw [assignFields_not_mem _ _ _ _ hnd.1, setValue, if_pos rfl]
    · exact ih _ hmem hnd.2

example : exceptOk (consumeAirtableData clsString1 (recordInit clsString1) dataString1) = true := rfl

example : recString1.id = some "rec1" := rfl

example : fieldGet recString1 "name" = .str "x" := rfl

example : encodeToAirtable clsString1 recString1 false = [] := rfl

example : (contextDelete clsString1 recString1).id = Option.none := rfl

example : encodeToAirtable clsString1 (contextDelete clsString1 recString1) false
    = [("Name", .str "x")] := rfl

example : fieldGet (contextDelete clsString1 recString1) "name" = .str "x" := rfl

example : recFloat1.fieldsValues "value" = .nan := rfl

example : encodeToAirtable clsFloat1 recFloat1 false = [("Value", .nan)] := rfl

theorem foldl_skip {α β : Type} (l : List β) (f : α → β → α) (a : α)
    (h : ∀ x ∈ l, ∀ acc, f acc x = acc) : l.foldl f a = a := by
  induction l generalizing a with
  | nil => rfl
  | cons y l ih =>
    rw [List.foldl_cons, h y (List.mem_cons_self _ _),
      ih _ (fun x hx => h x (List.mem_cons_of_mem _ hx))]

theorem foldl_single {α β : Type} (l : List β) (f : α → β → α) (x : β)
    (hx : x ∈ l) (hnd : l.Nodup)
    (hskip : ∀ y ∈ l, y ≠ x → ∀ acc, f acc y = acc) (a : α) :
    l.foldl f a = f a x := by
  induction l generalizing a with
  | nil => cases hx
  | cons y l ih =>
    rcases List.mem_cons.mp hx with rfl | hmem
    · rw [List.foldl_cons]
      exact foldl_skip _ _ _ (fun z hz acc =>
        hskip z (List.mem_cons_of_mem _ hz)
          (fun hzx => (List.nodup_cons.mp hnd).1 (hzx ▸ hz)) acc)
    · rw [List.foldl_cons,
        hskip y (List.mem_cons_self _ _)
          (fun hyx => (List.nodup_cons.mp hnd).1 (hyx ▸ hmem)) a]
      exact ih hmem (List.nodup_cons.mp hnd).2
        (fun z hz hzx => hskip z (List.mem_cons_of_mem _ hz) hzx) a

theorem foldl_filter {α β : Type} (p : β → Bool) (f : α → β → α)
    (l : List β) (a : α) :
    (l.filter p).foldl f a = l.foldl (fun acc x => if p x then f acc x else acc) a := by
  induction l generalizing a with
  | nil => rfl
  | cons y l ih =>
    by_cases hp : p y
    · rw [List.filter_cons_of_pos hp, List.foldl_cons, List.foldl_cons, if_pos hp, ih]
    · rw [List.filter_cons_of_neg hp, List.foldl_cons, if_neg hp, ih]

/--
**C1, counterexample.** The claim says that after `delete()` the record
"instantly reads as unmodified-and-blank: its dirty-field encoding is empty
and subsequent field reads reflect a blank record rather than stale deleted
data".  On the concrete persisted record `recString1` (one string field
holding `"x"`), `delete()` does clear the id and timestamp and reset the
snapshot, but the dirty-field encoding afterwards is `[("Name", "x")]`, not
empty, and reading the field still yields the stale `"x"` instead of the
blank decoded-from-absence value `""`.
-/
theorem delete_claim_counterexample :
    recString1.id = some "rec1" ∧
    (contextDelete clsString1 recString1).id = Option.none ∧
    ¬(encodeToAirtable clsString1 (contextDelete clsString1 recString1) false = []) ∧
    ¬(fieldGet (contextDelete clsString1 recString1) "name"
        = decodeAbsent FieldKind.string) := by
  refine ⟨rfl, rfl, ?_, ?_⟩ <;> decide

/--
**C1, amended.** After `delete()` on a persisted record: the server id and
creation timestamp are cleared and every field's snapshot is reset to its
decoded-from-absence value, but the current field values are left untouched —
so reads still return the pre-delete data, and the dirty-field encoding is
the encoding of the current values against the decoded-from-absence baseline
(anything semantically different from absence is instantly dirty) rather
than the empty mapping.
-/
theorem delete_clears_id_and_snapshots_but_not_values
    (cls : RecordCls) (r : RecordState)
    (hnd : (cls.fields.map Field.attrName).Nodup)
    (hid : r.id.isSome = true) :
    (contextDelete cls r).id = Option.none ∧
    (contextDelete cls r).createdTimestamp = Option.none ∧
    (∀ f ∈ cls.fields,
      (contextDelete cls r).origFieldsValues f.attrName = decodeAbsent f.kind) ∧
    (contextDelete cls r).fieldsValues = r.fieldsValues ∧
    encodeToAirtable cls (contextDelete cls r) false =
      cls.fields.foldl
        (fun result f =>
          match fieldReadOnly cls f, f.columnName with
          | false, some c =>
            if isSameValue f.kind (r.fieldsValues f.attrName)
                (decodeAbsent f.kind) then
              result
            else
              dictInsert result c
                (encodeToAirtableValue f.kind (r.fieldsValues f.attrName))
          | _, _ => result)
        [] := by
  obtain ⟨i, hi⟩ := Option.isSome_iff_exists.mp hid
  have hdel : contextDelete cls r =
      { r with
        id := Option.none
        createdTimestamp := Option.none
        origFieldsValues :=
          assignFields cls.fields (fun f => decodeAbsent f.kind)
            r.origFieldsValues } := by
    unfold contextDelete
    rw [hi]
  have horig : ∀ f ∈ cls.fields,
      (contextDelete cls r).origFieldsValues f.attrName = decodeAbsent f.kind := by
    intro f hf
    rw [hdel]
    exact assignFields_mem _ _ _ _ hf hnd
  refine ⟨by rw [hdel], by rw [hdel], horig, by rw [hdel], ?_⟩
  unfold encodeToAirtable
  apply List.foldl_ext
  intro acc f hf
  rw [hdel] at horig ⊢
  simp only []
  cases hro : fieldReadOnly cls f with
  | true => rfl
  | false =>
    cases hcol : f.columnName with
    | none => rfl
    | some c =>
      have := horig f hf
      simp only [] at this
      rw [this]
      rfl

/-- **C1, witness** for `delete_clears_id_and_snapshots_but_not_values`,
instantiated on the persisted one-string-field record `recString1`. -/
theorem delete_clears_id_and_snapshots_but_not_values_witness :
    ((clsString1.fields.map Field.attrName).Nodup ∧
      recString1.id.isSome = true) ∧
    ((contextDelete clsString1 recString1).id = Option.none ∧
      (contextDelete clsString1 recString1).createdTimestamp = Option.none ∧
      (∀ f ∈ clsString1.fields,
        (contextDelete clsString1 recString1).origFieldsValues f.attrName
          = decodeAbsent f.kind) ∧
      (contextDelete clsString1 recString1).fieldsValues
        = recString1.fieldsValues ∧
      encodeToAirtable clsString1 (contextDelete clsString1 recString1) false =
        clsString1.fields.foldl
          (fun result f =>
            match fieldReadOnly clsString1 f, f.columnName with
            | false, some c =>
              if isSameValue f.kind (recString1.fieldsValues f.attrName)
                  (decodeAbsent f.kind) then
                result
              else
                dictInsert result c
                  (encodeToAirtableValue f.kind
                    (recString1.fieldsValues f.attrName))
            | _, _ => result)
          []) :=
  ⟨⟨by decide, rfl⟩,
    delete_clears_id_and_snapshots_but_not_values clsString1 recString1
      (by decide) rfl⟩

/--
**C2 (code bug).** The claim (and the spec) say that assigning to a
read-only field raises exactly when *that instance* already has a server
identifier.  `BaseField.__set__` instead tests `self._record.id`, where
`self._record` is rebound by `BaseRecord.__new__` to the most recently
constructed instance.  Evaluating the embedded code at the failing input:
with instances A then B constructed and A hydrated (id `rec1`), assigning to
A's read-only field succeeds even though A has a server id (the guard reads
unsaved B's id); symmetrically, after hydrating B instead, a creation-time
write to the unsaved instance A raises.  A single coexisting instance
behaves as claimed.
-/
theorem read_only_guard_checks_last_constructed_instance :
    (instanceId worldAB 0 = some "rec1" ∧
      exceptOk (worldSetField clsRO fieldRO worldAB 0 (.str "y")) = true) ∧
    (instanceId worldAB' 0 = Option.none ∧
      exceptOk (worldSetField clsRO fieldRO worldAB' 0 (.str "y")) = false) := by
  refine ⟨⟨rfl, rfl⟩, ⟨rfl, rfl⟩⟩

theorem consumeFieldsStep_none (wire : List (String × PyVal))
    (m : String → PyVal) (f : Field) (h : f.columnName = Option.none) :
    consumeFieldsStep wire m f = .ok m := by
  unfold consumeFieldsStep
  rw [h]

theorem consumeFieldsStep_some (wire : List (String × PyVal))
    (m : String → PyVal) (f : Field) (c : String)
    (h : f.columnName = some c) (v : PyVal)
    (hd : decodeFromAirtable f.kind (wireGet wire c) = .ok v) :
    consumeFieldsStep wire m f = .ok (setValue m f.attrName v) := by
  unfold consumeFieldsStep
  rw [h]
  show (do
      let v ← decodeFromAirtable f.kind (wireGet wire c)
      Except.ok (setValue m f.attrName v)) = Except.ok (setValue m f.attrName v)
  rw [hd]
  rfl

theorem consumeFieldsStep_err (wire : List (String × PyVal))
    (m : String → PyVal) (f : Field) (c : String)
    (h : f.columnName = some c) (e : String)
    (hd : decodeFromAirtable f.kind (wireGet wire c) = .error e) :
    consumeFieldsStep wire m f = .error e := by
  unfold consumeFieldsStep
  rw [h]
  show (do
      let v ← decodeFromAirtable f.kind (wireGet wire c)
      Except.ok (setValue m f.attrName v)) = Except.error e
  rw [hd]
  rfl

theorem consumeFoldM_untouched (wire : List (String × PyVal))
    (fs : List Field) (m0 m : String → PyVal) (a : String)
    (ha : a ∉ fs.map Field.attrName)
    (hok : fs.foldlM (consumeFieldsStep wire) m0 = .ok m) :
    m a = m0 a := by
  induction fs generalizing m0 with
  | nil =>
    cases hok
    rfl
  | cons f fs ih =>
    simp only [List.map_cons, List.mem_cons, not_or] at ha
    rw [List.foldlM_cons] at hok
    cases hcol : f.columnName with
    | none =>
      rw [consumeFieldsStep_none wire m0 f hcol] at hok
      exact ih m0 ha.2 hok
    | some c =>
      cases hd : decodeFromAirtable f.kind (wireGet wire c) with
      | error e =>
        rw [consumeFieldsStep_err wire m0 f c hcol e hd] at hok
        cases hok
      | ok v =>
        rw [consumeFieldsStep_some wire m0 f c hcol v hd] at hok
        have hrec := ih (setValue m0 f.attrName v) ha.2 hok
        rw [hrec, setValue, if_neg ha.1]

theorem consumeFoldM_spec (wire : List (String × PyVal))
    (fs : List Field) (m0 : String → PyVal)
    (hnd : (fs.map Field.attrName).Nodup)
    (h : ∀ f ∈ fs, ∀ c, f.columnName = some c →
      ∃ v, decodeFromAirtable f.kind (wireGet wire c) = .ok v) :
    ∃ m, fs.foldlM (consumeFieldsStep wire) m0 = .ok m ∧
      ∀ f ∈ fs, ∀ c, f.columnName = some c →
        decodeFromAirtable f.kind (wireGet wire c) = .ok (m f.attrName) := by
  induction fs generalizing m0 with
  | nil => exact ⟨m0, rfl, by simp⟩
  | cons f fs ih =>
    simp only [List.map_cons, List.nodup_cons] at hnd
    cases hcol : f.columnName with
    | none =>
      obtain ⟨m, hm, hvals⟩ := ih m0 hnd.2
        (fun f' hf' c hc => h f' (List.mem_cons_of_mem _ hf') c hc)
      refine ⟨m, ?_, ?_⟩
      · rw [List.foldlM_cons, consumeFieldsStep_none wire m0 f hcol]
        exact hm
      · intro f' hf' c hc
        rcases List.mem_cons.mp hf' with heq | hmem
        · subst heq; rw [hcol] at hc; cases hc
        · exact hvals f' hmem c hc
    | some c =>
      obtain ⟨v, hv⟩ := h f (List.mem_cons_self _ _) c hcol
      obtain ⟨m, hm, hvals⟩ := ih (setValue m0 f.attrName v) hnd.2
        (fun f' hf' c' hc' => h f' (List.mem_cons_of_mem _ hf') c' hc')
      refine ⟨m, ?_, ?_⟩
      · rw [List.foldlM_cons, consumeFieldsStep_some wire m0 f c hcol v hv]
        exact hm
      · intro f' hf' c' hc'
        rcases List.mem_cons.mp hf' with heq | hmem
        · subst heq
          have hcc : c' = c := by rw [hcol] at hc'; cases hc'; rfl
          subst hcc
          have huntouched :=
            consumeFoldM_untouched wire fs (setValue m0 f'.attrName v) m
              f'.attrName hnd.1 hm
          rw [setValue, if_pos rfl] at huntouched
          rw [hv, huntouched]
        · exact hvals f' hmem c' hc'

/--
**C3, counterexample.** The claim says the dirty-field encoding is empty
immediately after hydration for *every* well-formed wire payload.  On the
concrete float-field record hydrated from the NaN wire sentinel
(`dataFloat1`), hydration succeeds, the field holds NaN — and since
`nan == nan` is false under the field's `is_same_value` rule, the record is
instantly dirty: `encode_to_airtable()` is non-empty right after
`consume_airtable_data`.
-/
theorem hydration_dirty_on_nan_counterexample :
    exceptOk (consumeAirtableData clsFloat1 (recordInit clsFloat1) dataFloat1)
        = true ∧
    consumeAirtableData clsFloat1 (recordInit clsFloat1) dataFloat1
        = .ok recFloat1 ∧
    recFloat1.id = some "rec2" ∧
    recFloat1.fieldsValues "value" = .nan ∧
    ¬(encodeToAirtable clsFloat1 recFloat1 false = []) := by
  refine ⟨rfl, rfl, rfl, rfl, by decide⟩

/--
**C3, amended.** Immediately after a successful hydration via
`consume_airtable_data`, the dirty-field encoding (`encode_to_airtable` with
only dirty fields) is the empty mapping — provided no field decodes to the
float NaN value (produced by the NaN wire sentinel), since NaN is unequal to
itself under the field's `is_same_value` rule and such a field is instantly
dirty.
-/
theorem hydration_never_dirty_without_nan
    (cls : RecordCls) (r : RecordState) (data : AirtableData)
    (hnd : (cls.fields.map Field.attrName).Nodup)
    (hdec : ∀ f ∈ cls.fields, ∀ c, f.columnName = some c →
      ∃ v, decodeFromAirtable f.kind (wireGet data.fields c) = .ok v ∧
        v ≠ .nan) :
    ∃ r', consumeAirtableData cls r data = .ok r' ∧
      r'.id = some data.id ∧
      encodeToAirtable cls r' false = [] := by
  obtain ⟨m, hm, hvals⟩ :=
    consumeFoldM_spec data.fields cls.fields r.fieldsValues hnd
      (fun f hf c hc => (hdec f hf c hc).imp fun v hv => hv.1)
  refine ⟨clearDirtyFields cls
      { r with
        id := some data.id
        createdTimestamp := some data.createdTime
        fieldsValues := m }, ?_, rfl, ?_⟩
  · unfold consumeAirtableData consumeFieldsValues
    rw [hm]
    rfl
  · apply foldl_skip
    intro f hf acc
    cases hro : fieldReadOnly cls f with
    | true => rfl
    | false =>
      cases hcol : f.columnName with
      | none => rfl
      | some c =>
        simp only [clearDirtyFields]
        have horig :
            assignFields cls.fields
              (fun f => cloneValue f.kind (m f.attrName))
              r.origFieldsValues f.attrName
              = m f.attrName :=
          assignFields_mem cls.fields _ _ f hf hnd
        have hnotnan : m f.attrName ≠ .nan := by
          obtain ⟨v, hv, hvn⟩ := hdec f hf c hcol
          have := hvals f hf c hcol
          rw [hv] at this
          cases this
          exact hvn
        rw [horig]
        show (if !false && isSameValue f.kind (m f.attrName) (m f.attrName)
            then acc
            else dictInsert acc c
              (encodeToAirtableValue f.kind (m f.attrName))) = acc
        rw [show isSameValue f.kind (m f.attrName) (m f.attrName) = true from
          pyEq_refl _ hnotnan]
        rfl

/-- **C3, witness** for `hydration_never_dirty_without_nan`: the
one-string-field record hydrated from `dataString1` comes out with an empty
dirty encoding. -/
theorem hydration_never_dirty_without_nan_witness :
    (clsString1.fields.map Field.attrName).Nodup ∧
    (∃ r', consumeAirtableData clsString1 (recordInit clsString1) dataString1
        = .ok r' ∧
      r'.id = some "rec1" ∧
      encodeToAirtable clsString1 r' false = []) :=
  ⟨by decide,
    hydration_never_dirty_without_nan clsString1 (recordInit clsString1)
      dataString1 (by decide)
      (by
        intro f hf c hc
        have hfe : f = fieldString1 := by
          simpa [clsString1] using hf
        subst hfe
        have hce : c = "Name" := by
          have : some "Name" = some c := hc
          cases this
          rfl
        subst hce
        exact ⟨.str "x", rfl, by decide⟩)⟩

theorem fieldReadOnly_fields_irrel (cls : RecordCls) (fs : List Field)
    (f : Field) :
    fieldReadOnly { cls with fields := fs } f = fieldReadOnly cls f := rfl

theorem encode_skips_readonly_fields (cls : RecordCls) (r : RecordState)
    (b : Bool) :
    encodeToAirtable cls r b =
      encodeToAirtable
        { cls with fields := cls.fields.filter (fun f => !(fieldReadOnly cls f)) }
        r b := by
  unfold encodeToAirtable
  rw [foldl_filter]
  apply List.foldl_ext
  intro acc f hf
  cases hro : fieldReadOnly cls f with
  | true => simp [hro, fieldReadOnly_fields_irrel]
  | false => simp [hro, fieldReadOnly_fields_irrel]

/--
**C4.** On a clean (just-synced) record, mutating exactly one writable field
to a (validated) value that differs from its snapshot per the field's
`is_same_value` rule makes the dirty-field encoding contain exactly that
field's wire column mapped to the new encoded value; and read-only fields
never contribute to any encoding (dirty or full) — the encoding equals the
encoding of the class with the read-only fields filtered out.
-/
theorem single_mutation_dirty_diff
    (cls : RecordCls) (r : RecordState) (f0 : Field) (c : String)
    (lastBound : Option String) (v : PyVal)
    (hnd : (cls.fields.map Field.attrName).Nodup)
    (hf0 : f0 ∈ cls.fields)
    (hro : fieldReadOnly cls f0 = false)
    (hc0 : f0.columnName = some c)
    (hclean : ∀ f ∈ cls.fields, fieldReadOnly cls f = false →
      ∀ c', f.columnName = some c' →
        isSameValue f.kind (r.fieldsValues f.attrName)
          (r.origFieldsValues f.attrName) = true)
    (hdiff : isSameValue f0.kind (validateValue f0.kind v)
        (r.origFieldsValues f0.attrName) = false) :
    ∃ r2, fieldSet cls f0 lastBound r v = .ok r2 ∧
      encodeToAirtable cls r2 false =
        [(c, encodeToAirtableValue f0.kind (validateValue f0.kind v))] ∧
      (∀ (b : Bool), encodeToAirtable cls r2 b =
        encodeToAirtable
          { cls with
            fields := cls.fields.filter (fun f => !(fieldReadOnly cls f)) }
          r2 b) := by
  refine ⟨{ r with
      fieldsValues :=
        setValue r.fieldsValues f0.attrName (validateValue f0.kind v) },
    ?_, ?_, fun b => encode_skips_readonly_fields cls _ b⟩
  · unfold fieldSet
    rw [hro]
    rfl
  · unfold encodeToAirtable
    have hinj : ∀ f ∈ cls.fields, f.attrName = f0.attrName → f = f0 := by
      intro f hf hname
      exact List.inj_on_of_nodup_map hnd hf hf0 hname
    rw [foldl_single cls.fields _ f0 hf0 (List.Nodup.of_map _ hnd)]
    · rw [hro, hc0]
      show (if !false && isSameValue f0.kind
            (setValue r.fieldsValues f0.attrName (validateValue f0.kind v)
              f0.attrName)
            (r.origFieldsValues f0.attrName)
          then ([] : List (String × PyVal))
          else dictInsert [] c
            (encodeToAirtableValue f0.kind
              (setValue r.fieldsValues f0.attrName (validateValue f0.kind v)
                f0.attrName))) =
        [(c, encodeToAirtableValue f0.kind (validateValue f0.kind v))]
      rw [setValue, if_pos rfl, hdiff]
      rfl
    · intro f hf hne acc
      cases hrof : fieldReadOnly cls f with
      | true => simp [hrof]
      | false =>
        cases hcolf : f.columnName with
        | none => simp [hrof, hcolf]
        | some c' =>
          have hna : ¬(f.attrName = f0.attrName) := fun h => hne (hinj f hf h)
          simp only [hrof, hcolf]
          show (if !false && isSameValue f.kind
                (setValue r.fieldsValues f0.attrName (validateValue f0.kind v)
                  f.attrName)
                (r.origFieldsValues f.attrName)
              then acc
              else dictInsert acc c'
                (encodeToAirtableValue f.kind
                  (setValue r.fieldsValues f0.attrName
                    (validateValue f0.kind v) f.attrName))) = acc
          rw [setValue, if_neg hna, hclean f hf hrof c' hcolf]
          rfl

/-- **C4, witness** for `single_mutation_dirty_diff`: setting the clean
`recString1`'s only field to `"y"` yields the dirty diff
`[("Name", "y")]`. -/
theorem single_mutation_dirty_diff_witness :
    ((clsString1.fields.map Field.attrName).Nodup ∧
      fieldString1 ∈ clsString1.fields ∧
      fieldReadOnly clsString1 fieldString1 = false ∧
      fieldString1.columnName = some "Name" ∧
      isSameValue fieldString1.kind
        (validateValue fieldString1.kind (.str "y"))
        (recString1.origFieldsValues fieldString1.attrName) = false) ∧
    (∃ r2, fieldSet clsString1 fieldString1 Option.none recString1 (.str "y")
        = .ok r2 ∧
      encodeToAirtable clsString1 r2 false =
        [("Name", encodeToAirtableValue fieldString1.kind
          (validateValue fieldString1.kind (.str "y")))] ∧
      (∀ (b : Bool), encodeToAirtable clsString1 r2 b =
        encodeToAirtable
          { clsString1 with
            fields := clsString1.fields.filter
              (fun f => !(fieldReadOnly clsString1 f)) }
          r2 b)) :=
  ⟨⟨by decide, by decide, by decide, by decide, by decide⟩,
    single_mutation_dirty_diff clsString1 recString1 fieldString1 "Name"
      Option.none (.str "y") (by decide) (by decide) (by decide) (by decide)
      (by decide) (by decide)⟩

example : buildFormula clsString1 (mkAndFilter []) = .ok "" := rfl

example : buildFormula clsString1
    (mkAndFilter [.FalseFilter, .TrueFilter]) = .ok "FALSE()" := rfl

example : buildFormula clsString1
    (.NotFilter (.NotFilter (.EqualsFilter "name" (.str "x"))))
    = buildFormula clsString1 (.EqualsFilter "name" (.str "x")) := rfl

example : buildFormula clsString1 (.EqualsFilter "name" (.str "a\"b"))
    = .ok "\x7bName\x7d=\"a\\\"b\"" := rfl

/--
**C6.** For every record class and filters: an `AndFilter` over zero filters
renders as the empty string; an `AndFilter` whose arguments contain the
literal-false leaf renders identically to the bare `FalseFilter`;
`NOT(NOT(f))` renders identically to `f`; and `NOT(NOT(NOT(f)))` renders
identically to `NOT(f)`.
-/
theorem filter_rendering_algebra (cls : RecordCls) (f : BFilter)
    (fs : List BFilter) (hmem : BFilter.FalseFilter ∈ fs) :
    buildFormula cls (mkAndFilter []) = .ok "" ∧
    buildFormula cls (mkAndFilter fs) = buildFormula cls .FalseFilter ∧
    buildFormula cls (.NotFilter (.NotFilter f)) = buildFormula cls f ∧
    buildFormula cls (.NotFilter (.NotFilter (.NotFilter f)))
      = buildFormula cls (.NotFilter f) := by
  refine ⟨rfl, ?_, ?_, ?_⟩
  · have hflat : BFilter.FalseFilter ∈ fs.flatMap (fun f =>
        match f with
        | .AndFilter gs => gs
        | g => [g]) :=
      List.mem_flatMap.mpr ⟨.FalseFilter, hmem, List.mem_singleton.mpr rfl⟩
    have hany : (fs.flatMap (fun f =>
        match f with
        | .AndFilter gs => gs
        | g => [g])).any isFalseFilter = true :=
      List.any_eq_true.mpr ⟨.FalseFilter, hflat, rfl⟩
    have hL : buildFormula cls (mkAndFilter fs) =
        if (fs.flatMap (fun f =>
            match f with
            | .AndFilter gs => gs
            | g => [g])).any isFalseFilter then
          Except.ok "FALSE()"
        else
          buildFormulaList cls (fs.flatMap (fun f =>
              match f with
              | .AndFilter gs => gs
              | g => [g])) >>= fun ss =>
            Except.ok (airtableFilterAnd ss) := rfl
    rw [hL, if_pos hany]
    rfl
  · rfl
  · rfl

/-- **C6, witness** for `filter_rendering_algebra` at a concrete class,
filter and child list. -/
theorem filter_rendering_algebra_witness :
    BFilter.FalseFilter ∈ [BFilter.FalseFilter, BFilter.TrueFilter] ∧
    (buildFormula clsString1 (mkAndFilter []) = .ok "" ∧
      buildFormula clsString1
          (mkAndFilter [BFilter.FalseFilter, BFilter.TrueFilter])
        = buildFormula clsString1 .FalseFilter ∧
      buildFormula clsString1
          (.NotFilter (.NotFilter (.EqualsFilter "name" (.str "x"))))
        = buildFormula clsString1 (.EqualsFilter "name" (.str "x")) ∧
      buildFormula clsString1
          (.NotFilter (.NotFilter (.NotFilter (.EqualsFilter "name" (.str "x")))))
        = buildFormula clsString1 (.NotFilter (.EqualsFilter "name" (.str "x")))) :=
  ⟨List.mem_cons_self _ _,
    filter_rendering_algebra clsString1 (.EqualsFilter "name" (.str "x"))
      [BFilter.FalseFilter, BFilter.TrueFilter] (List.mem_cons_self _ _)⟩

theorem paren_formula_ne_equals (x y : String) (w : FilterVal) :
    ¬("(" ++ x ++ ")" = airtableFilterEquals y w) := by
  intro h
  have hd := congrArg String.data h
  unfold airtableFilterEquals quoteColumnName at hd
  simp only [String.data_append, List.append_assoc, List.singleton_append,
    List.cons_append] at hd
  injection hd with h1 _
  exact absurd h1 (by decide)

theorem not_formula_ne_equals (x y : String) (w : FilterVal) :
    ¬("NOT(" ++ x ++ ")" = airtableFilterEquals y w) := by
  intro h
  have hd := congrArg String.data h
  unfold airtableFilterEquals quoteColumnName at hd
  simp only [String.data_append, List.append_assoc, List.singleton_append,
    List.cons_append] at hd
  injection hd with h1 _
  exact absurd h1 (by decide)

/--
**C8.** An equality filter on a boolean field renders as the (parenthesised)
bare column reference `(\x7bcol\x7d)` when the comparison value is true and
as the negated reference `NOT(\x7bcol\x7d)` when false — and never as the
generic `\x7bcol\x7d=value` comparison produced by
`airtable_filter_equals`.
-/
theorem boolean_equality_renders_column_reference
    (cls : RecordCls) (attrName : String) (field : Field) (c : String)
    (v : FilterVal)
    (hfind : getFieldObject cls attrName = .ok field)
    (hbool : field.kind = .boolean)
    (hcol : field.columnName = some c) :
    buildFormula cls (.EqualsFilter attrName v)
      = .ok (if filterValTruthy v then "(" ++ quoteColumnName c ++ ")"
          else "NOT(" ++ quoteColumnName c ++ ")") ∧
    (v = .bool true → buildFormula cls (.EqualsFilter attrName v)
      = .ok ("(" ++ quoteColumnName c ++ ")")) ∧
    (v = .bool false → buildFormula cls (.EqualsFilter attrName v)
      = .ok ("NOT(" ++ quoteColumnName c ++ ")")) ∧
    (∀ w : FilterVal, ¬(buildFormula cls (.EqualsFilter attrName v)
      = .ok (airtableFilterEquals c w))) := by
  have hmain : buildFormula cls (.EqualsFilter attrName v)
      = .ok (if filterValTruthy v then "(" ++ quoteColumnName c ++ ")"
          else "NOT(" ++ quoteColumnName c ++ ")") := by
    rw [buildFormula, hfind]
    show (if field.kind = .boolean then
        if filterValTruthy v then
          Except.ok ("(" ++ quoteColumnName (pyStrOfOptColumn field.columnName)
            ++ ")")
        else
          Except.ok ("NOT(" ++ quoteColumnName (pyStrOfOptColumn field.columnName)
            ++ ")")
      else
        Except.ok (airtableFilterEquals (pyStrOfOptColumn field.columnName) v))
      = _
    rw [if_pos hbool, hcol]
    cases filterValTruthy v with
    | false => rfl
    | true => rfl
  have hcases : buildFormula cls (.EqualsFilter attrName v)
        = .ok ("(" ++ quoteColumnName c ++ ")") ∨
      buildFormula cls (.EqualsFilter attrName v)
        = .ok ("NOT(" ++ quoteColumnName c ++ ")") := by
    rw [hmain]
    cases filterValTruthy v with
    | false => exact Or.inr rfl
    | true => exact Or.inl rfl
  refine ⟨hmain, ?_, ?_, ?_⟩
  · intro hv
    rw [hmain, hv]
    rfl
  · intro hv
    rw [hmain, hv]
    rfl
  · intro w hw
    rcases hcases with hc | hc <;> rw [hc] at hw
    · exact paren_formula_ne_equals (quoteColumnName c) c w (Except.ok.inj hw)
    · exact not_formula_ne_equals (quoteColumnName c) c w (Except.ok.inj hw)

/-- **C8, witness** for `boolean_equality_renders_column_reference` on a
boolean field `done` (column `Done`). -/
theorem boolean_equality_renders_column_reference_witness :
    (getFieldObject
        { fields := [{ attrName := "done", columnName := some "Done",
                       readOnly := Option.none, kind := .boolean }]
          metaReadOnly := Option.none } "done"
      = .ok { attrName := "done", columnName := some "Done",
              readOnly := Option.none, kind := .boolean }) ∧
    (buildFormula
        { fields := [{ attrName := "done", columnName := some "Done",
                       readOnly := Option.none, kind := .boolean }]
          metaReadOnly := Option.none }
        (.EqualsFilter "done" (.bool true))
      = .ok (if filterValTruthy (.bool true)
          then "(" ++ quoteColumnName "Done" ++ ")"
          else "NOT(" ++ quoteColumnName "Done" ++ ")")) :=
  ⟨rfl,
    (boolean_equality_renders_column_reference
      { fields := [{ attrName := "done", columnName := some "Done",
                     readOnly := Option.none, kind := .boolean }]
        metaReadOnly := Option.none }
      "done"
      { attrName := "done", columnName := some "Done",
        readOnly := Option.none, kind := .boolean }
      "Done" (.bool true) rfl rfl rfl).1⟩

/--
**C5.** A freshly constructed (unscoped) query raises on iteration; a
`.none()` query iterates to zero elements with zero remote calls; `.get(id)`
on a `.none()` query raises `KeyError` (missing key) without any remote
call; `.get(id)` on a query with any filter applied raises; and `.filter`
with at least one criterion always leaves a filter applied.
-/
theorem query_state_machine (q : RecordQuery) (recordId : String)
    (criteria : List BFilter) (hwf : q.wf) (hcrit : criteria ≠ []) :
    RecordQuery.fresh.iterOutcome = .raises ∧
    q.noneQuery.iterOutcome = .yieldsNothingNoRemote ∧
    q.noneQuery.get recordId = .raisesKeyError recordId ∧
    (q.recordFilter.isSome = true →
      (q.get recordId = .raisesKeyError recordId ∨
        q.get recordId = .raisesValueError)) ∧
    (q.filterBy criteria).recordFilter.isSome = true := by
  refine ⟨rfl, ?_, ?_, ?_, ?_⟩
  · unfold RecordQuery.noneQuery RecordQuery.iterOutcome
    cases hq : q.isEmptyQuery with
    | true => simp [hq, hwf hq]
    | false => simp
  · unfold RecordQuery.noneQuery RecordQuery.get
    cases hq : q.isEmptyQuery with
    | true => simp [hq]
    | false => simp
  · intro hfilt
    unfold RecordQuery.get
    cases hq : q.isEmptyQuery with
    | true => exact Or.inl (by simp)
    | false =>
      refine Or.inr ?_
      obtain ⟨flt, hflt⟩ := Option.isSome_iff_exists.mp hfilt
      simp [hflt]
  · unfold RecordQuery.filterBy
    cases criteria with
    | nil => exact absurd rfl hcrit
    | cons c cs => rfl

/-- **C5, witness** for `query_state_machine` on a fresh query with one
equality criterion. -/
theorem query_state_machine_witness :
    (RecordQuery.fresh.wf ∧
      [BFilter.EqualsFilter "name" (.str "x")] ≠ []) ∧
    (RecordQuery.fresh.iterOutcome = .raises ∧
      RecordQuery.fresh.noneQuery.iterOutcome = .yieldsNothingNoRemote ∧
      RecordQuery.fresh.noneQuery.get "rec1" = .raisesKeyError "rec1" ∧
      (RecordQuery.fresh.recordFilter.isSome = true →
        (RecordQuery.fresh.get "rec1" = .raisesKeyError "rec1" ∨
          RecordQuery.fresh.get "rec1" = .raisesValueError)) ∧
      (RecordQuery.fresh.filterBy
        [BFilter.EqualsFilter "name" (.str "x")]).recordFilter.isSome = true) :=
  ⟨⟨fun h => absurd h Bool.false_ne_true, List.cons_ne_nil _ _⟩,
    query_state_machine RecordQuery.fresh "rec1"
      [BFilter.EqualsFilter "name" (.str "x")]
      (fun h => absurd h Bool.false_ne_true) (List.cons_ne_nil _ _)⟩

/--
**C7.** Two single record links constructed from the same identifier
(neither resolved) compare equal; and two links whose resolved records are
the identical record object compare equal, regardless of their identifiers
(differing, equal or absent).
-/
theorem record_link_equality (i : String) (a b : RecordLink) (r : Nat)
    (ha : a.linkRecord = some r) (hb : b.linkRecord = some r) :
    recordLinkEq ⟨some i, Option.none⟩ ⟨some i, Option.none⟩ = true ∧
    recordLinkEq a b = true := by
  constructor
  · simp [recordLinkEq]
  · unfold recordLinkEq
    by_cases h : a.linkId.isSome && a.linkId == b.linkId
    · rw [if_pos h]
    · rw [if_neg h, ha, hb]
      simp

/-- **C7, witness** for `record_link_equality`: two links resolved to the
same record object but with different identifiers. -/
theorem record_link_equality_witness :
    ((⟨some "recA", some 7⟩ : RecordLink).linkRecord = some 7 ∧
      (⟨some "recB", some 7⟩ : RecordLink).linkRecord = some 7) ∧
    (recordLinkEq ⟨some "rec1", Option.none⟩ ⟨some "rec1", Option.none⟩
        = true ∧
      recordLinkEq ⟨some "recA", some 7⟩ ⟨some "recB", some 7⟩ = true) :=
  ⟨⟨rfl, rfl⟩,
    record_link_equality "rec1" ⟨some "recA", some 7⟩ ⟨some "recB", some 7⟩
      7 rfl rfl⟩

/--
**C9.** Constructing an attachment field without `read_only` set to a true
value raises at field-definition time, and `encode` on an attachment field
raises at call time for every value.
-/
theorem attachment_readonly_and_encode_unsupported :
    (∀ (columnName : Option String) (default : Option PyVal)
      (readOnly : Option Bool), ¬(readOnly = some true) →
        exceptOk (attachmentFieldInit columnName default readOnly) = false) ∧
    (∀ v : PyVal, exceptOk (attachmentFieldEncode v) = false) := by
  constructor
  · intro columnName default readOnly hro
    unfold attachmentFieldInit
    rw [if_pos]
    · rfl
    · cases readOnly with
      | none => rfl
      | some b =>
        cases b with
        | false => rfl
        | true => exact absurd rfl hro
  · intro v
    rfl

/-- **C9, witness** for `attachment_readonly_and_encode_unsupported`:
constructing `AttachmentField('Photos')` (no `read_only`) fails, and so does
encoding any value. -/
theorem attachment_readonly_and_encode_unsupported_witness :
    ¬((Option.none : Option Bool) = some true) ∧
    exceptOk (attachmentFieldInit (some "Photos") Option.none Option.none)
      = false ∧
    exceptOk (attachmentFieldEncode .none) = false :=
  ⟨by decide,
    attachment_readonly_and_encode_unsupported.1 (some "Photos") Option.none
      Option.none (by decide),
    attachment_readonly_and_encode_unsupported.2 .none⟩

theorem validatorFromEnum_idem (enumValues : List String) (x : SelVal) :
    validatorFromEnum enumValues (validatorFromEnum enumValues x)
      = validatorFromEnum enumValues x := by
  cases x with
  | raw s =>
    show validatorFromEnum enumValues
        (if s ∈ enumValues then SelVal.member s else SelVal.raw s)
      = (if s ∈ enumValues then SelVal.member s else SelVal.raw s)
    by_cases h : s ∈ enumValues
    · rw [if_pos h]
      rfl
    · rw [if_neg h]
      show (if s ∈ enumValues then SelVal.member s else SelVal.raw s)
        = SelVal.raw s
      rw [if_neg h]
  | member s => rfl

/--
**C10.** The value set applies its validator on every operation: `add x`
inserts `validator x`, `discard x` removes `validator x`, and membership
tests `validator x`.  With an enum-coercion validator (which is idempotent)
a raw value and its coerced member are therefore interchangeable in `add`,
`discard` and containment, and after `add x` both `x` and `validator x` test
as members.
-/
theorem valueset_validates_every_operation
    (s : ValueSet T) (x : T) (E : List String) (t : ValueSet SelVal)
    (y : SelVal) (hv : t.validator = validatorFromEnum E) :
    (s.add x).items = insert (s.validator x) s.items ∧
    (s.discard x).items = s.items.erase (s.validator x) ∧
    (s.contains x = true ↔ s.validator x ∈ s.items) ∧
    (t.add y).items = (t.add (t.validator y)).items ∧
    (t.discard y).items = (t.discard (t.validator y)).items ∧
    t.contains y = t.contains (t.validator y) ∧
    (t.add y).contains y = true ∧
    (t.add y).contains (t.validator y) = true := by
  have hidem : t.validator (t.validator y) = t.validator y := by
    rw [hv]
    exact validatorFromEnum_idem E y
  refine ⟨rfl, rfl, decide_eq_true_iff, ?_, ?_, ?_, ?_, ?_⟩
  · unfold ValueSet.add
    rw [hidem]
  · unfold ValueSet.discard
    rw [hidem]
  · unfold ValueSet.contains
    rw [hidem]
  · unfold ValueSet.contains ValueSet.add
    simp
  · unfold ValueSet.contains ValueSet.add
    rw [hidem]
    simp

/-- **C10, witness** for `valueset_validates_every_operation`: an empty set
whose validator coerces into the enum with values `A` and `B`, exercised at
the raw value `A`. -/
theorem valueset_validates_every_operation_witness :
    (ValueSet.mk (∅ : Finset SelVal) (validatorFromEnum ["A", "B"])).validator
      = validatorFromEnum ["A", "B"] ∧
    ((ValueSet.mk (∅ : Finset SelVal)
          (validatorFromEnum ["A", "B"])).add (.raw "A")).contains (.raw "A")
      = true ∧
    ((ValueSet.mk (∅ : Finset SelVal)
          (validatorFromEnum ["A", "B"])).add (.raw "A")).contains
        (.member "A")
      = true :=
  ⟨rfl,
    (valueset_validates_every_operation
      (ValueSet.mk (∅ : Finset SelVal) (validatorFromEnum ["A", "B"]))
      (.raw "A") ["A", "B"]
      (ValueSet.mk (∅ : Finset SelVal) (validatorFromEnum ["A", "B"]))
      (.raw "A") rfl).2.2.2.2.2.2.1,
    (valueset_validates_every_operation
      (ValueSet.mk (∅ : Finset SelVal) (validatorFromEnum ["A", "B"]))
      (.raw "A") ["A", "B"]
      (ValueSet.mk (∅ : Finset SelVal) (validatorFromEnum ["A", "B"]))
      (.raw "A") rfl).2.2.2.2.2.2.2⟩

end Pyrtable
